import Mathlib

/-!
Formal model of the ScoopMath library (`Math/Vector.hpp`, `Math/Matrix.hpp`).

`Scoop::Math::Vector<Type, Size>` is modelled as its flat element buffer
`Type data[Size]`, i.e. a function `Fin Size → α`; a column-major
`Scoop::Math::Matrix<Type, Rows, Cols>` as its flat buffer
`Type data[Rows * Cols]`, i.e. `Fin (Rows * Cols) → α`.  Checked accessors
and bulk assignment return `Except Err` / a state pair, mirroring the C++
exceptions; an operation whose loop performs a raw out-of-bounds array read
returns `Option`.  Element types are instantiated with `ℤ`/`ℝ` for the exact
integer and double cases and `ZMod 256` for `uint8_t` (wrap-around modulo
2^8).
-/

namespace ScoopMath

/-- Error kinds raised by the library: `SizeMismatch` (bulk assign length
check), `IndexOutOfRange` (checked `At`), `ShapeMismatch` (`AsVector` on a
matrix with more than one column). -/
inductive Err where
  | sizeMismatch
  | indexOutOfRange
  | shapeMismatch
deriving DecidableEq, Repr

/-- Equality of call outcomes is decidable, so concrete runs can be checked
by evaluation. -/
instance {ε α : Type} [DecidableEq ε] [DecidableEq α] :
    DecidableEq (Except ε α) := fun x y =>
  match x, y with
  | .ok a, .ok b =>
    if h : a = b then isTrue (by rw [h])
    else isFalse (by intro he; cases he; exact h rfl)
  | .ok _, .error _ => isFalse (by intro he; cases he)
  | .error _, .ok _ => isFalse (by intro he; cases he)
  | .error e, .error f =>
    if h : e = f then isTrue (by rw [h])
    else isFalse (by intro he; cases he; exact h rfl)

/-- `Vector<Type, Size>`: the flat element array `Type data[Size]`. -/
abbrev Vector (α : Type) (n : Nat) : Type := Fin n → α

/-- `Matrix<Type, Rows, Cols>`: the flat element array `Type data[Rows * Cols]`.
The class's layout convention is column-major: `At(row, col)` reads
`data[col * Rows + row]`. -/
abbrev Matrix (α : Type) (R C : Nat) : Type := Fin (R * C) → α

/-- A column-major coordinate pair is inside the flat buffer. -/
lemma colMajor_lt {R C r c : Nat} (hr : r < R) (hc : c < C) :
    c * R + r < R * C := by
  calc c * R + r < c * R + R := by omega
    _ = (c + 1) * R := by ring
    _ ≤ C * R := Nat.mul_le_mul_right R hc
    _ = R * C := Nat.mul_comm C R

/-- A nonempty flat buffer has a positive row count. -/
lemma pos_left {R C : Nat} (j : Fin (R * C)) : 0 < R := by
  rcases Nat.eq_zero_or_pos R with h | h
  · exact absurd j.isLt (by simp [h])
  · exact h

/-- A nonempty flat buffer has a positive column count. -/
lemma pos_right {R C : Nat} (j : Fin (R * C)) : 0 < C := by
  rcases Nat.eq_zero_or_pos C with h | h
  · exact absurd j.isLt (by simp [h])
  · exact h

/-- Row coordinate recovered from a column-major flat index. -/
lemma mod_left_lt {R C : Nat} (j : Fin (R * C)) : j.val % R < R :=
  Nat.mod_lt _ (pos_left j)

/-- Column coordinate recovered from a column-major flat index. -/
lemma div_left_lt {R C : Nat} (j : Fin (R * C)) : j.val / R < C := by
  rw [Nat.div_lt_iff_lt_mul (pos_left j)]
  exact lt_of_lt_of_le j.isLt (le_of_eq (Nat.mul_comm R C))

/-- Decoding a flat index `r * C + c` (with `c < C`): the quotient. -/
lemma encode_fst {C r c : Nat} (hc : c < C) : (r * C + c) / C = r := by
  rw [Nat.mul_comm, Nat.mul_add_div (by omega), Nat.div_eq_of_lt hc,
    Nat.add_zero]

/-- Decoding a flat index `r * C + c` (with `c < C`): the remainder. -/
lemma encode_snd {C r c : Nat} (hc : c < C) : (r * C + c) % C = c := by
  rw [Nat.mul_comm, Nat.mul_add_mod, Nat.mod_eq_of_lt hc]

/-- `Vector::At(size_t index)` (Vector.hpp): raises `IndexOutOfRange` when
`index >= Size`, otherwise returns `data[index]`. -/
def Vector.atChecked {α : Type} {n : Nat} (v : Vector α n) (i : Nat) :
    Except Err α :=
  if h : i < n then Except.ok (v ⟨i, h⟩) else Except.error Err.indexOutOfRange

/-- The vector built by `memcpy(this->data, &values[0], sizeof(Type) * Size)`
from a `std::vector` of exactly the right length. -/
def Vector.ofList {α : Type} {n : Nat} (l : List α) (h : l.length = n) :
    Vector α n :=
  fun i => l.get ⟨i.val, by rw [h]; exact i.isLt⟩

/-- `Vector::Assign(const std::vector<Type>&)` (Vector.hpp): the length check
runs first and throws `SizeMismatch` before any element is written; on the
matching length the buffer is overwritten by `memcpy` from `&values[0]`.
Returns the object's buffer after the call together with the outcome. -/
def Vector.assignListSt {α : Type} {n : Nat} (v : Vector α n) (l : List α) :
    Vector α n × Except Err Unit :=
  if h : l.length = n then (Vector.ofList l h, Except.ok ())
  else (v, Except.error Err.sizeMismatch)

/-- `Matrix::Assign(const std::vector<Type>&)` (Matrix.hpp lines 44-49): the
length check runs first and throws `SizeMismatch` before any write; on the
matching length the source code executes
`std::memcpy(this->data, data, sizeof(Type) * Rows * Cols)` whose second
argument is the member `data` itself (not `values`), so the buffer is copied
onto itself and stays unchanged.  Returns the buffer after the call together
with the outcome. -/
def Matrix.assignListSt {α : Type} {R C : Nat} (m : Matrix α R C)
    (l : List α) : Matrix α R C × Except Err Unit :=
  if l.length = R * C then (m, Except.ok ())
  else (m, Except.error Err.sizeMismatch)

/-- `Matrix::At(size_t index)` (Matrix.hpp lines 53-58): raises
`IndexOutOfRange` when `index >= Rows * Cols`, otherwise returns
`data[index]`. -/
def Matrix.atChecked {α : Type} {R C : Nat} (m : Matrix α R C) (i : Nat) :
    Except Err α :=
  if h : i < R * C then Except.ok (m ⟨i, h⟩)
  else Except.error Err.indexOutOfRange

/-- `Matrix::At(size_t row, size_t col)` (Matrix.hpp line 67): computes the
column-major flat index `col * Rows + row` and delegates to the checked
`At(index)`. -/
def Matrix.atRC {α : Type} {R C : Nat} (m : Matrix α R C) (row col : Nat) :
    Except Err α :=
  Matrix.atChecked m (col * R + row)

/-- The element `At(row, col)` returns on in-range coordinates:
`data[col * Rows + row]`. -/
def Matrix.entry {α : Type} {R C : Nat} (m : Matrix α R C) (r : Fin R)
    (c : Fin C) : α :=
  m ⟨c.val * R + r.val, colMajor_lt r.isLt c.isLt⟩

/-- `Matrix::Assign(Type diagonal)` (Matrix.hpp lines 27-42): the nested
loops (`row` outer, `col` inner) advance one flat counter `i`, so the loop
visits flat index `i` with `row = i / Cols` and `col = i % Cols` and writes
`diagonal` there exactly when `row == col`, else `0`.  Note the counter walks
the buffer row-major while the class layout is column-major. -/
def Matrix.assignDiag {α : Type} [Zero α] {R C : Nat} (d : α) :
    Matrix α R C :=
  fun i => if i.val / C = i.val % C then d else 0

/-- `Matrix::Identity()` (Matrix.hpp line 285): `Matrix(1)`, i.e.
`Assign(1)`. -/
def Matrix.identity {α : Type} [Zero α] [One α] {R C : Nat} : Matrix α R C :=
  Matrix.assignDiag 1

/-- The inner loop of `Matrix::Multiply` (Matrix.hpp lines 191-194):
`Type dot = 0; for (m = 0; m < Cols; m++) dot += this->At(row, m) * mat.At(m, col);`. -/
def Matrix.dotRC {α : Type} [Add α] [Mul α] [Zero α] {R C C2 : Nat}
    (A : Matrix α R C) (B : Matrix α C C2) (row : Fin R) (col : Fin C2) : α :=
  (List.finRange C).foldl
    (fun acc m => acc + Matrix.entry A row m * Matrix.entry B m col) 0

/-- `Matrix::Multiply(const Matrix<Type, Cols, Cols2>&)` (Matrix.hpp lines
183-201): writes `newMat.At(row, col)` for every `row < Rows`,
`col < Cols2`, covering each flat index `j = col * Rows + row` of the result
exactly once; decoding `j` gives `row = j % Rows` and `col = j / Rows`. -/
def Matrix.mul {α : Type} [Add α] [Mul α] [Zero α] {R C C2 : Nat}
    (A : Matrix α R C) (B : Matrix α C C2) : Matrix α R C2 :=
  fun j => Matrix.dotRC A B ⟨j.val % R, mod_left_lt j⟩ ⟨j.val / R, div_left_lt j⟩

/-- `Matrix::Multiply(const Vector<Type, Rows>&)` (Matrix.hpp lines
203-218): the parameter is declared `Vector<Type, Rows>`, yet the inner loop
reads `vec.data[col]` for every `col < Cols` through the raw (unchecked)
array — an out-of-bounds read whenever some iteration has `col >= Rows`,
i.e. when `Rows > 0` and `Cols > Rows`.  The model returns `none` exactly
when such a read happens, and otherwise the vector
`newVec.data[row] = Σ_{col < Cols} At(row, col) * vec.data[col]`. -/
def Matrix.mulVec {α : Type} [Add α] [Mul α] [Zero α] {R C : Nat}
    (A : Matrix α R C) (v : Vector α R) : Option (Vector α R) :=
  if hok : R = 0 ∨ C ≤ R then
    some (fun row =>
      (List.finRange C).foldl
        (fun acc col =>
          acc + Matrix.entry A row col * v ⟨col.val, by
            have h1 := row.isLt
            have h2 := col.isLt
            rcases hok with h0 | h0 <;> omega⟩)
        0)
  else none

/-- `Vector::Magnitude()`'s accumulator (Vector.hpp lines 86-97):
`Type sum = 0; for each element: sum += element * element;` — the sum is
taken in the element type's own arithmetic. -/
def Vector.sumSq {α : Type} [Add α] [Mul α] [Zero α] {n : Nat}
    (v : Vector α n) : α :=
  (List.finRange n).foldl (fun acc i => acc + v i * v i) 0

/-- `Vector::Magnitude()` for `Type = double` (modelled as `ℝ`): the final
`sqrt(sum)` with the accumulator already a double. -/
noncomputable def Vector.magnitudeReal {n : Nat} (v : Vector ℝ n) : ℝ :=
  Real.sqrt (Vector.sumSq v)

/-- `Vector::Magnitude()` for `Type = uint8_t` (modelled as `ZMod 256`): the
sum of squares wraps modulo 2^8 in the accumulator, and only then is its
numeric value converted to double for `sqrt`. -/
noncomputable def Vector.magnitudeU8 {n : Nat} (v : Vector (ZMod 256) n) : ℝ :=
  Real.sqrt (((Vector.sumSq v).val : ℝ))

/-- `Vector::Cross` (Vector.hpp lines 119-129), defined only for `Size == 3`:
the standard 3D cross product formula written exactly as in the source. -/
def Vector.cross {α : Type} [Mul α] [Sub α] (a b : Vector α 3) :
    Vector α 3 :=
  ![a 1 * b 2 - a 2 * b 1,
    a 2 * b 0 - a 0 * b 2,
    a 0 * b 1 - a 1 * b 0]

/-- Element-wise negation, used to state the anti-commutativity of `Cross`. -/
def Vector.negElem {α : Type} [Neg α] {n : Nat} (v : Vector α n) :
    Vector α n :=
  fun i => -(v i)

/-- `Matrix<Type, 4, 4>::Translation(const Vector<Type, 3>&)` (Matrix.hpp
lines 290-300): constructs `Matrix<Type, 4, 4>(initializer)` whose
constructor calls `Assign(values)`; `init` is the default-constructed
(uninitialized) buffer the constructor starts from.  The initializer list,
read column-major, is the homogeneous translation matrix with
`delta[0..2]` in the last column. -/
def Matrix.translationCtor {α : Type} [Zero α] [One α]
    (init : Matrix α 4 4) (d : Vector α 3) : Matrix α 4 4 × Except Err Unit :=
  Matrix.assignListSt init
    [1, 0, 0, 0,
     0, 1, 0, 0,
     0, 0, 1, 0,
     d 0, d 1, d 2, 1]

/-- A concrete 2×2 integer matrix, flat data `{1, 2, 3, 4}` (column-major:
column 0 is `{1, 2}`, column 1 is `{3, 4}`). -/
def sample22 : Matrix ℤ 2 2 := ![1, 2, 3, 4]

/-- A concrete 2×2 integer matrix whose buffer holds `{9, 9, 9, 9}`. -/
def sample22Nines : Matrix ℤ 2 2 := ![9, 9, 9, 9]

/-- A concrete 2×3 integer matrix, flat data `{1, 2, 3, 4, 5, 6}`. -/
def sample23 : Matrix ℤ 2 3 := ![1, 2, 3, 4, 5, 6]

/-- A 4×4 double matrix whose (uninitialized) buffer happens to hold zeros. -/
def zeroInit44 : Matrix ℝ 4 4 := fun _ => 0

/-- A `sum += f x` loop over a list is `init + Σ f`. -/
lemma foldl_add_map_sum {M ι : Type*} [AddMonoid M] (f : ι → M)
    (l : List ι) (a : M) :
    l.foldl (fun acc x => acc + f x) a = a + (l.map f).sum := by
  induction l generalizing a with
  | nil => simp
  | cons x xs ih => simp [ih, add_assoc]

/-- A fold whose step leaves the accumulator unchanged is the identity. -/
lemma foldl_congr_id {M ι : Type*} {f : M → ι → M}
    (hf : ∀ a x, f a x = a) (l : List ι) (a : M) : l.foldl f a = a := by
  induction l generalizing a with
  | nil => rfl
  | cons x xs ih => rw [List.foldl_cons, hf, ih]

/-- The `Magnitude` accumulator is the sum of the squared elements. -/
lemma Vector.sumSq_eq_sum {α : Type} [AddCommMonoid α] [Mul α] {n : Nat}
    (v : Vector α n) : Vector.sumSq v = ∑ i, v i * v i := by
  unfold Vector.sumSq
  rw [foldl_add_map_sum, zero_add, ← Fin.sum_univ_def]

/-- The `dot` loop of `Multiply` is the usual inner-product sum. -/
lemma Matrix.dotRC_eq_sum {α : Type} [AddCommMonoid α] [Mul α]
    {R C C2 : Nat} (A : Matrix α R C) (B : Matrix α C C2) (row : Fin R)
    (col : Fin C2) :
    Matrix.dotRC A B row col = ∑ m, Matrix.entry A row m * Matrix.entry B m col := by
  unfold Matrix.dotRC
  rw [foldl_add_map_sum, zero_add, ← Fin.sum_univ_def]

/-- An entry of the matrix product is the `dot` of its row and column. -/
lemma Matrix.entry_mul {α : Type} [Add α] [Mul α] [Zero α] {R C C2 : Nat}
    (A : Matrix α R C) (B : Matrix α C C2) (r : Fin R) (c : Fin C2) :
    Matrix.entry (Matrix.mul A B) r c = Matrix.dotRC A B r c := by
  unfold Matrix.entry Matrix.mul
  apply congrArg₂ (Matrix.dotRC A B) <;> apply Fin.ext
  · show (c.val * R + r.val) % R = r.val
    rw [encode_snd r.isLt]
  · show (c.val * R + r.val) / R = c.val
    rw [encode_fst r.isLt]

/-- For a square matrix the (row-major) diagonal fill of `Assign(1)` reads
back through the column-major `At` as the usual identity entries. -/
lemma Matrix.entry_identity {α : Type} [Zero α] [One α] {N : Nat}
    (r c : Fin N) :
    Matrix.entry (Matrix.identity : Matrix α N N) r c =
      if c = r then 1 else 0 := by
  unfold Matrix.identity Matrix.assignDiag Matrix.entry
  show (if (c.val * N + r.val) / N = (c.val * N + r.val) % N then _ else _) = _
  rw [encode_fst r.isLt, encode_snd r.isLt]
  simp [Fin.ext_iff]

/-- Matrices agreeing on every `(row, col)` entry are equal. -/
lemma Matrix.ext_entry {α : Type} {R C : Nat} {A B : Matrix α R C}
    (h : ∀ r c, Matrix.entry A r c = Matrix.entry B r c) : A = B := by
  funext j
  have e := h ⟨j.val % R, mod_left_lt j⟩ ⟨j.val / R, div_left_lt j⟩
  unfold Matrix.entry at e
  convert e using 2 <;>
    · apply Fin.ext
      show j.val = j.val / R * R + j.val % R
      exact (Nat.div_add_mod' j.val R).symm

/-- C1: `Matrix::Assign(values)` of a correct-length sequence succeeds, but
the buffer does NOT read back as the source sequence — the `memcpy` copies
the member `data` onto itself, leaving every element unchanged.  On the 2×2
matrix holding `{9, 9, 9, 9}`, `Assign({1, 2, 3, 4})` returns success and
`At(0)` still yields `9`, not `1` as the claim requires. -/
theorem c1_matrix_assign_not_copying :
    Matrix.assignListSt sample22Nines [1, 2, 3, 4] =
      (sample22Nines, Except.ok ()) ∧
    Matrix.atChecked (Matrix.assignListSt sample22Nines [1, 2, 3, 4]).1 0 =
      Except.ok (9 : ℤ) ∧
    (9 : ℤ) ≠ 1 := by
  refine ⟨rfl, rfl, by decide⟩

/-- C2: `Matrix::Assign(diagonal)` places the diagonal with a row-major flat
counter, not at the column-major positions `c*R + r` the claim states.  On a
2×3 matrix, `Assign(5)` yields flat data `{5, 0, 0, 0, 5, 0}`: the diagonal
position `(1, 1)` (flat index `1*2 + 1 = 3`) holds `0`, not `5`. -/
theorem c2_diagonal_row_major :
    (Matrix.assignDiag (5 : ℤ) : Matrix ℤ 2 3) = ![5, 0, 0, 0, 5, 0] ∧
    Matrix.entry (Matrix.assignDiag (5 : ℤ) : Matrix ℤ 2 3) 1 1 = 0 ∧
    (5 : ℤ) ≠ 0 := by
  refine ⟨?_, by decide, by decide⟩
  decide

/-- C3 counterexample: on the 2×2 matrix `{1, 2, 3, 4}`, the call
`At(row = 3, col = 0)` has an out-of-range row (`3 ≥ 2`), yet it resolves to
flat index `0*2 + 3 = 3 < 4` and returns element `4` instead of raising
`IndexOutOfRange`, contradicting the claim. -/
theorem c3_counterexample :
    Matrix.atRC sample22 3 0 = Except.ok (4 : ℤ) ∧
    Matrix.atRC sample22 3 0 ≠ Except.error Err.indexOutOfRange ∧
    2 ≤ 3 := by
  refine ⟨by decide, by decide, by decide⟩

/-- C3 (amended): `At(row, col)` computes the flat index `col*R + row` and
delegates to the checked `At(index)`; it raises `IndexOutOfRange` exactly
when `col*R + row ≥ R*C`, and for every in-range pair `row < R`, `col < C`
it returns the element at flat index `col*R + row`. -/
theorem c3_amended {α : Type} {R C : Nat} (m : Matrix α R C)
    (row col : Nat) :
    Matrix.atRC m row col = Matrix.atChecked m (col * R + row) ∧
    (R * C ≤ col * R + row →
      Matrix.atRC m row col = Except.error Err.indexOutOfRange) ∧
    (∀ h : col * R + row < R * C,
      Matrix.atRC m row col = Except.ok (m ⟨col * R + row, h⟩)) ∧
    (∀ (hr : row < R) (hc : col < C),
      Matrix.atRC m row col =
        Except.ok (Matrix.entry m ⟨row, hr⟩ ⟨col, hc⟩)) := by
  refine ⟨rfl, ?_, ?_, ?_⟩
  · intro hle
    unfold Matrix.atRC Matrix.atChecked
    rw [dif_neg (by omega)]
  · intro h
    unfold Matrix.atRC Matrix.atChecked
    rw [dif_pos h]
  · intro hr hc
    unfold Matrix.atRC Matrix.atChecked
    rw [dif_pos (colMajor_lt hr hc)]
    rfl

/-- C3 witness: the amended statement evaluated on the 2×2 matrix
`{1, 2, 3, 4}` at the in-range pair `(1, 1)`. -/
theorem c3_amended_witness : Matrix.atRC sample22 1 1 = Except.ok (4 : ℤ) := by
  have h := (c3_amended sample22 1 1).2.2.2 (by omega) (by omega)
  rw [h]
  decide

/-- C5: `Matrix::Multiply(const Vector<Type, Rows>&)` declares its vector
argument with length `Rows`, not `Cols` as the claim states, while its loop
reads `vec.data[col]` for every `col < Cols`; on a 2×3 matrix the required
argument is a `Vector<Type, 2>` and the iteration at `col = 2` reads out of
bounds (modelled as `none`). -/
theorem c5_mulvec_reads_out_of_bounds :
    Matrix.mulVec sample23 (![1, 2] : Vector ℤ 2) = none := by
  decide

/-- C10: bulk assignment is atomic on failure for both containers — the
length check precedes every write, so a mismatched source sequence raises
`SizeMismatch` and leaves the buffer exactly as it was. -/
theorem c10_assign_failure_atomic {α : Type} {n R C : Nat}
    (v : Vector α n) (l : List α) (hv : l.length ≠ n)
    (m : Matrix α R C) (l2 : List α) (hm : l2.length ≠ R * C) :
    Vector.assignListSt v l = (v, Except.error Err.sizeMismatch) ∧
    Matrix.assignListSt m l2 = (m, Except.error Err.sizeMismatch) := by
  constructor
  · unfold Vector.assignListSt
    rw [dif_neg hv]
  · unfold Matrix.assignListSt
    rw [if_neg hm]

/-- C10 witness: a length-3 sequence against a 2-vector and a length-1
sequence against a 2×2 matrix both fail and leave the buffers unchanged. -/
theorem c10_witness :
    Vector.assignListSt (![7, 8] : Vector ℤ 2) [1, 2, 3] =
      (![7, 8], Except.error Err.sizeMismatch) ∧
    Matrix.assignListSt sample22 [1] =
      (sample22, Except.error Err.sizeMismatch) :=
  c10_assign_failure_atomic ![7, 8] [1, 2, 3] (by decide) sample22 [1]
    (by decide)

/-- C4 counterexample: for `Type = uint8_t` the accumulator wraps modulo
2^8, so `Vector<uint8_t, 1>({16}).Magnitude()` is `sqrt(0) = 0`, while the
claim's untruncated value `√(16²) = √256` is `16`. -/
theorem c4_counterexample :
    Vector.magnitudeU8 (![16] : Vector (ZMod 256) 1) = 0 ∧
    Real.sqrt (16 * 16) = 16 ∧
    (0 : ℝ) ≠ 16 := by
  refine ⟨?_, ?_, by norm_num⟩
  · unfold Vector.magnitudeU8
    rw [show Vector.sumSq (![16] : Vector (ZMod 256) 1) = 0 from by decide]
    simp
  · rw [show (16 : ℝ) * 16 = 16 ^ 2 by norm_num]
    exact Real.sqrt_sq (by norm_num)

/-- C4 (amended): `Magnitude()` accumulates the sum of squares in `Type`'s
own arithmetic (wrapping for fixed-width integer types such as `uint8_t`),
converts that accumulator to double and takes its square root; for
`Type = double` the sum is the exact `Σ vᵢ²`, and concretely
`Vector<double, 3>({1, 2, 3}).Magnitude() = sqrt(14)`. -/
theorem c4_amended :
    (∀ (k : Nat) (v : Vector ℝ k),
      Vector.magnitudeReal v = Real.sqrt (∑ i, v i * v i)) ∧
    Vector.magnitudeReal (![1, 2, 3] : Vector ℝ 3) = Real.sqrt 14 ∧
    (∀ (k : Nat) (v : Vector (ZMod 256) k),
      Vector.magnitudeU8 v =
        Real.sqrt (((∑ i, v i * v i : ZMod 256).val : ℝ))) := by
  refine ⟨?_, ?_, ?_⟩
  · intro k v
    unfold Vector.magnitudeReal
    rw [Vector.sumSq_eq_sum]
  · unfold Vector.magnitudeReal
    rw [Vector.sumSq_eq_sum]
    congr 1
    simp [Fin.sum_univ_succ]
    norm_num
  · intro k v
    unfold Vector.magnitudeU8
    rw [Vector.sumSq_eq_sum]

/-- C4 witness: the double-precision instance evaluated on `{3, 4}`. -/
theorem c4_witness :
    Vector.magnitudeReal (![3, 4] : Vector ℝ 2) =
      Real.sqrt (∑ i, (![3, 4] : Vector ℝ 2) i * (![3, 4] : Vector ℝ 2) i) :=
  c4_amended.1 2 ![3, 4]

/-- C6: `Translation({1, 2, 3})` builds the correct column-major initializer
list, but the `Matrix(values)` constructor's `Assign` copies the member
buffer onto itself, so the constructor returns its default-constructed
(uninitialized) storage unchanged; when that garbage happens to be all
zeros, multiplying by `{0, 0, 0, 1}` yields `{0, 0, 0, 0}`, not the claimed
`{1, 2, 3, 1}`. -/
theorem c6_translation_uninitialized :
    (∀ (init : Matrix ℝ 4 4) (d : Vector ℝ 3),
      Matrix.translationCtor init d = (init, Except.ok ())) ∧
    Matrix.mulVec zeroInit44 (![0, 0, 0, 1] : Vector ℝ 4) =
      some (fun _ => 0) ∧
    (fun _ => (0 : ℝ)) ≠ (![1, 2, 3, 1] : Vector ℝ 4) := by
  refine ⟨fun init d => rfl, ?_, ?_⟩
  · unfold Matrix.mulVec
    rw [dif_pos (Or.inr (le_refl 4))]
    refine congrArg some (funext fun row => ?_)
    apply foldl_congr_id
    intro acc col
    show acc + Matrix.entry zeroInit44 row col * _ = acc
    rw [show Matrix.entry zeroInit44 row col = 0 from rfl, zero_mul, add_zero]
  · intro h
    have h0 := congrFun h 0
    simp only [Matrix.cons_val_zero] at h0
    exact absurd h0 (by norm_num)

/-- C8: for a square matrix, `Identity()` (the diagonal fill with 1, which
is correct on square shapes) is a two-sided multiplicative identity for
`Multiply`. -/
theorem c8_identity_two_sided {α : Type} [NonAssocSemiring α] {N : Nat}
    (A : Matrix α N N) :
    Matrix.mul Matrix.identity A = A ∧ Matrix.mul A Matrix.identity = A := by
  constructor
  · apply Matrix.ext_entry
    intro r c
    rw [Matrix.entry_mul, Matrix.dotRC_eq_sum]
    simp [Matrix.entry_identity, ite_mul, one_mul, zero_mul,
      Finset.sum_ite_eq']
  · apply Matrix.ext_entry
    intro r c
    rw [Matrix.entry_mul, Matrix.dotRC_eq_sum]
    simp [Matrix.entry_identity, mul_ite, mul_one, mul_zero,
      Finset.sum_ite_eq]

/-- C8 witness: both identity products on the concrete 2×2 matrix. -/
theorem c8_witness :
    Matrix.mul Matrix.identity sample22 = sample22 ∧
    Matrix.mul sample22 Matrix.identity = sample22 :=
  c8_identity_two_sided sample22

/-- C9: the 3D cross product is anti-commutative — `a.Cross(b)` is the
element-wise negation of `b.Cross(a)` — and `a.Cross(a)` is the zero
vector. -/
theorem c9_cross_antisymm {α : Type} [CommRing α] (a b : Vector α 3) :
    Vector.cross a b = Vector.negElem (Vector.cross b a) ∧
    Vector.cross a a = (fun _ => (0 : α)) := by
  constructor <;> funext i <;> fin_cases i <;>
    simp [Vector.cross, Vector.negElem] <;> ring

/-- C9 witness: the cross-product laws on `{1, 2, 3}` and `{4, 5, 6}`. -/
theorem c9_witness :
    Vector.cross (![1, 2, 3] : Vector ℤ 3) ![4, 5, 6] =
      Vector.negElem (Vector.cross ![4, 5, 6] ![1, 2, 3]) ∧
    Vector.cross (![1, 2, 3] : Vector ℤ 3) ![1, 2, 3] = fun _ => 0 :=
  c9_cross_antisymm ![1, 2, 3] ![4, 5, 6]

end ScoopMath
